import Mathlib

/-! # Home-Amazon: reservation store and lifecycle (`server.js`)

A shallow embedding of the JSON-file reservation store and of the lifecycle
routes of `server.js`, followed by theorems about them.

Modelling conventions.

* `db.reservations` is a JavaScript array of object references.  It is modelled
  as a `List Reservation` of values.  A route handler obtains a reference with
  `findReservation`, mutates that object in place and then calls
  `saveReservation`; the in-place mutation is the explicit `mutateFound` step
  (the first record matching the key is overwritten), followed by the
  transliterated `saveReservation`.  The value model agrees with the reference
  model as long as no two slots of the array hold the same object, which is the
  case for a store parsed from `db.json` and for every store built from the
  empty one (ids stay pairwise distinct there, see `run_ids_nodup`).
* Request bodies are parsed JSON (or `qs`) values: `JsValue`.  A missing field
  (`undefined`) is `none`.
* The clock (`nowISO()`), the identifier generator (`nanoid(6)`) and
  `getBaseUrl(req)` are inputs of each request.
* `writeDB` (the whole-file rewrite) has no effect on `db` and is not modelled.
* An exception escaping a handler is turned by Express into a 500 response:
  `Response.serverError`.
-/

namespace HomeAmazon

/-- A JavaScript number as far as the server observes one: whether it is falsy
(`0`, `-0`, `NaN`) and the text `ToString` gives for it. -/
structure JsNumber where
  falsy : Bool
  text : String

/-- A value that can occur in a parsed request body or in a stored record. -/
inductive JsValue where
  | null
  | bool (b : Bool)
  | num (n : JsNumber)
  | str (s : String)
  | arr (items : List JsValue)
  | obj (fields : List (String × JsValue))

/-- JavaScript truthiness (`ToBoolean`). -/
def truthy : JsValue → Bool
  | .null => false
  | .bool b => b
  | .num n => !n.falsy
  | .str s => !(s == "")
  | .arr _ => true
  | .obj _ => true

/-- Truthiness of a possibly missing body field; `undefined` is falsy. -/
def truthyField : Option JsValue → Bool
  | none => false
  | some v => truthy v

/-- The expression `field || dflt` for a possibly missing body field. -/
def orDefault (field : Option JsValue) (dflt : JsValue) : JsValue :=
  match field with
  | some v => if truthy v then v else dflt
  | none => dflt

/-- The comparison `v === key` for a string `key`. -/
def strictEqString (v : JsValue) (key : String) : Bool :=
  match v with
  | .str s => s == key
  | _ => false

/-- The comparison `field === key` for a possibly missing field and a string. -/
def fieldIsString (field : Option JsValue) (key : String) : Bool :=
  match field with
  | some v => strictEqString v key
  | none => false

mutual
/-- JavaScript `ToString` on a JSON-born value, as used by a template literal;
`none` stands for the `TypeError` thrown when an object carries an own
(non-callable) `toString` property. -/
def jsToString : JsValue → Option String
  | .null => some "null"
  | .bool true => some "true"
  | .bool false => some "false"
  | .num n => some n.text
  | .str s => some s
  | .arr items => (joinParts items).map (fun parts => ",".intercalate parts)
  | .obj fields => if fieldsShadowToString fields then none else some "[object Object]"
/-- The pieces `Array.prototype.join` concatenates: `null` gives the empty
string, any other element its `ToString`. -/
def joinParts : List JsValue → Option (List String)
  | [] => some []
  | .null :: rest => (joinParts rest).map (fun parts => "" :: parts)
  | v :: rest =>
    match jsToString v, joinParts rest with
    | some s, some parts => some (s :: parts)
    | _, _ => none
/-- Whether an object has an own property named `toString`. -/
def fieldsShadowToString : List (String × JsValue) → Bool
  | [] => false
  | (k, _) :: rest => k == "toString" || fieldsShadowToString rest
end

/-- The characters `String.prototype.trim` strips (WhiteSpace and
LineTerminator of ECMAScript). -/
def jsWhitespace (c : Char) : Bool :=
  let n := c.toNat
  n == 0x09 || n == 0x0A || n == 0x0B || n == 0x0C || n == 0x0D || n == 0x20 ||
  n == 0xA0 || n == 0x1680 || (0x2000 ≤ n && n ≤ 0x200A) || n == 0x2028 ||
  n == 0x2029 || n == 0x202F || n == 0x205F || n == 0x3000 || n == 0xFEFF

/-- The test `s.trim() === ''`. -/
def trimIsEmpty (s : String) : Bool :=
  s.toList.all jsWhitespace

/-- The method `toUpperCase` on the output of `nanoid`, whose alphabet is ASCII
(`A-Za-z0-9_-`): lower-case ASCII letters are raised, the rest is kept. -/
def toUpperCase (s : String) : String :=
  String.mk (s.toList.map Char.toUpper)

/-- The function `path.basename` (POSIX): the last component of a path. -/
def basename (p : String) : String :=
  String.mk (((p.toList.reverse.dropWhile (fun c => c == '/')).takeWhile
    (fun c => !(c == '/'))).reverse)

/-- One entry of a reservation's audit trail. -/
structure Event where
  eventType : String
  actor : String
  timestamp : String
  note : String

/-- Proof of delivery: `type` is `photo` or `text`. -/
structure Proof where
  type : String
  value : JsValue

/-- A reservation record, with the fields of the object literal in
`POST /api/reservations`. -/
structure Reservation where
  id : String
  trackingNumber : JsValue
  customerName : JsValue
  customerContact : JsValue
  itemDescription : JsValue
  weightEstimate : JsValue
  desiredWindow : JsValue
  status : String
  storageLocation : JsValue
  frontDeskTags : JsValue
  driverId : Option String
  proof : Option Proof
  createdAt : String
  updatedAt : String
  events : List Event

/-- The array `db.reservations`. -/
abbrev Db := List Reservation

/-- What a route answers. -/
inductive Response where
  | created (id : String) (qrUrl : String)
  | ok (reservation : Reservation)
  | error (status : Nat) (message : String)
  | redirect (location : String)
  | serverError

/-- The session object: `req.session.role` and `req.session.user`. -/
structure Session where
  role : Option String
  user : Option String

/-- The predicate of `findReservation`:
`r.id === idOrTracking || r.trackingNumber === idOrTracking`. -/
def matchesKey (idOrTracking : String) (r : Reservation) : Bool :=
  r.id == idOrTracking || strictEqString r.trackingNumber idOrTracking

/-- The function `findReservation`; the key is a route parameter, a string. -/
def findReservation (db : Db) (idOrTracking : String) : Option Reservation :=
  db.find? (matchesKey idOrTracking)

/-- The function `saveReservation`: `findIndex` by id, then `push` or
assignment at the index found. -/
def saveReservation (db : Db) (reservation : Reservation) : Db :=
  match db.findIdx? (fun r => r.id == reservation.id) with
  | none => db ++ [reservation]
  | some idx => db.set idx reservation

/-- In-place mutation of the object `findReservation` returned: the first
record matching the key now reads as `updated`. -/
def mutateFound (db : Db) (idOrTracking : String) (updated : Reservation) : Db :=
  match db.findIdx? (matchesKey idOrTracking) with
  | none => db
  | some idx => db.set idx updated

/-- The test of the middleware `requireRole(role)`:
`req.session && req.session.role === role`. -/
def roleMatches (role : String) (session : Option Session) : Bool :=
  match session with
  | some s => s.role == some role
  | none => false

/-- The middleware `requireRole(role)` in front of a handler: run the handler
when the role matches, otherwise redirect to the login page of that role. -/
def requireRole (role : String) (session : Option Session) (db : Db)
    (next : Db → Db × Response) : Db × Response :=
  if roleMatches role session then next db
  else (db, .redirect ("/login?role=" ++ role))

/-- Inputs of `POST /api/reservations`: the body fields, the `nanoid(6)` draw,
the three `nowISO()` readings and `getBaseUrl(req)`. -/
structure CreateInput where
  customerName : Option JsValue
  customerContact : Option JsValue
  itemDescription : Option JsValue
  weightEstimate : Option JsValue
  desiredWindow : Option JsValue
  nano : String
  now1 : String
  now2 : String
  now3 : String
  baseUrl : String

/-- The record built by `POST /api/reservations`. -/
def newReservation (i : CreateInput) (itemDescription : JsValue) : Reservation where
  id := "R" ++ toUpperCase i.nano
  trackingNumber := .null
  customerName := orDefault i.customerName .null
  customerContact := orDefault i.customerContact .null
  itemDescription := itemDescription
  weightEstimate := orDefault i.weightEstimate .null
  desiredWindow := orDefault i.desiredWindow .null
  status := "reserved"
  storageLocation := .null
  frontDeskTags := .arr []
  driverId := none
  proof := none
  createdAt := i.now1
  updatedAt := i.now2
  events := [⟨"reserved", "customer", i.now3, "Reservation created"⟩]

/-- The route `POST /api/reservations`. -/
def createReservation (db : Db) (i : CreateInput) : Db × Response :=
  if !(truthyField i.itemDescription) then
    (db, .error 400 "itemDescription required")
  else
    match i.itemDescription with
    | some (.str s) =>
      if trimIsEmpty s then (db, .error 400 "itemDescription required")
      else
        let reservation := newReservation i (.str s)
        (saveReservation db reservation,
          .created reservation.id (i.baseUrl ++ "/track/" ++ reservation.id))
    | _ => (db, .serverError)

/-- Inputs of `POST /api/reservations/:id/assign-tracking`. -/
structure AssignInput where
  trackingNumber : Option JsValue
  storageLocation : Option JsValue
  frontDeskTags : Option JsValue
  nano : String
  now1 : String
  now2 : String

/-- The value assigned to `reservation.frontDeskTags` by assign-tracking. -/
def assignedTags (field : Option JsValue) (old : JsValue) : JsValue :=
  match field with
  | some (.arr items) => .arr items
  | some v => if truthy v then .arr [v] else old
  | none => old

/-- The field assignments of assign-tracking, before the event is pushed. -/
def assignFields (r : Reservation) (i : AssignInput) : Reservation :=
  { r with
    trackingNumber := orDefault i.trackingNumber (.str ("T-" ++ toUpperCase i.nano))
    storageLocation := orDefault i.storageLocation r.storageLocation
    frontDeskTags := assignedTags i.frontDeskTags r.frontDeskTags
    status := if r.status == "reserved" then "checked_in" else r.status
    updatedAt := i.now1 }

/-- The record after assign-tracking has pushed its event; `shown` is the
string form of the new tracking number inside the note. -/
def assignRecord (r : Reservation) (i : AssignInput) (shown : String) : Reservation :=
  { assignFields r i with
    events := r.events ++
      [⟨"checked_in", "frontdesk", i.now2, "Assigned tracking " ++ shown⟩] }

/-- The route handler of assign-tracking.  The template literal of the note
throws when the new tracking number has no string form; the fields are then
already assigned, no event is pushed and nothing is saved. -/
def assignTracking (db : Db) (key : String) (i : AssignInput) : Db × Response :=
  match findReservation db key with
  | none => (db, .error 404 "Not found")
  | some r =>
    match jsToString (assignFields r i).trackingNumber with
    | none => (mutateFound db key (assignFields r i), .serverError)
    | some shown =>
      let r1 := assignRecord r i shown
      (saveReservation (mutateFound db key r1) r1, .ok r1)

/-- Inputs of `PUT /api/reservations/:id`: the allow-listed body fields. -/
structure EditInput where
  itemDescription : Option JsValue
  customerName : Option JsValue
  customerContact : Option JsValue
  weightEstimate : Option JsValue
  storageLocation : Option JsValue
  frontDeskTags : Option JsValue
  now1 : String
  now2 : String

/-- The assignment guarded by `req.body[field] !== undefined`. -/
def overwrite (field : Option JsValue) (old : JsValue) : JsValue :=
  match field with
  | some v => v
  | none => old

/-- The record after the edit handler. -/
def editRecord (r : Reservation) (i : EditInput) : Reservation :=
  { r with
    itemDescription := overwrite i.itemDescription r.itemDescription
    customerName := overwrite i.customerName r.customerName
    customerContact := overwrite i.customerContact r.customerContact
    weightEstimate := overwrite i.weightEstimate r.weightEstimate
    storageLocation := overwrite i.storageLocation r.storageLocation
    frontDeskTags := overwrite i.frontDeskTags r.frontDeskTags
    updatedAt := i.now1
    events := r.events ++ [⟨"edited", "frontdesk", i.now2, "Edited details"⟩] }

/-- The route handler of `PUT /api/reservations/:id`. -/
def editReservation (db : Db) (key : String) (i : EditInput) : Db × Response :=
  match findReservation db key with
  | none => (db, .error 404 "Not found")
  | some r =>
    let r1 := editRecord r i
    (saveReservation (mutateFound db key r1) r1, .ok r1)

/-- The record after move-to-loading (`eventType` `moved_to_loading`) or
mark-ready (`marked_ready`). -/
def readyRecord (r : Reservation) (eventType note now1 now2 : String) : Reservation :=
  { r with
    status := "ready"
    updatedAt := now1
    events := r.events ++ [⟨eventType, "store", now2, note⟩] }

/-- The route handler of move-to-loading. -/
def moveToLoading (db : Db) (key : String) (now1 now2 : String) : Db × Response :=
  match findReservation db key with
  | none => (db, .error 404 "Not found")
  | some r =>
    let r1 := readyRecord r "moved_to_loading" "Moved to loading bay" now1 now2
    (saveReservation (mutateFound db key r1) r1, .ok r1)

/-- The route handler of mark-ready. -/
def markReady (db : Db) (key : String) (now1 now2 : String) : Db × Response :=
  match findReservation db key with
  | none => (db, .error 404 "Not found")
  | some r =>
    let r1 := readyRecord r "marked_ready" "Marked ready for delivery" now1 now2
    (saveReservation (mutateFound db key r1) r1, .ok r1)

/-- Truthiness of a string-or-null field such as `driverId`. -/
def truthyString : Option String → Bool
  | some s => !(s == "")
  | none => false

/-- The expression `req.session.user || 'driver'`. -/
def claimingDriver (user : Option String) : String :=
  match user with
  | some s => if s == "" then "driver" else s
  | none => "driver"

/-- The record after a successful claim. -/
def claimRecord (r : Reservation) (user : Option String) (now1 now2 : String) : Reservation :=
  { r with
    driverId := some (claimingDriver user)
    status := "out_for_delivery"
    updatedAt := now1
    events := r.events ++
      [⟨"claimed", "driver", now2, "Claimed by " ++ claimingDriver user⟩] }

/-- The route handler of claim. -/
def claimReservation (db : Db) (user : Option String) (key : String)
    (now1 now2 : String) : Db × Response :=
  match findReservation db key with
  | none => (db, .error 404 "Not found")
  | some r =>
    if r.status == "out_for_delivery" && truthyString r.driverId then
      (db, .error 409 "Already claimed")
    else
      let r1 := claimRecord r user now1 now2
      (saveReservation (mutateFound db key r1) r1, .ok r1)

/-- Inputs of deliver: `req.file.path` when multer stored an upload, and the
body fields. -/
structure DeliverInput where
  file : Option String
  proofType : Option JsValue
  proofValue : Option JsValue
  now1 : String
  now2 : String

/-- The value of `reservation.proof` after the two-armed conditional of
deliver. -/
def deliveredProof (old : Option Proof) (i : DeliverInput) : Option Proof :=
  match i.file with
  | some filePath => some ⟨"photo", .str ("/uploads/" ++ basename filePath)⟩
  | none =>
    match i.proofValue with
    | some v =>
      if fieldIsString i.proofType "text" && truthy v then some ⟨"text", v⟩ else old
    | none => old

/-- The record after deliver. -/
def deliverRecord (r : Reservation) (i : DeliverInput) : Reservation :=
  { r with
    proof := deliveredProof r.proof i
    status := "delivered"
    updatedAt := i.now1
    events := r.events ++ [⟨"delivered", "driver", i.now2, "Delivered"⟩] }

/-- The route handler of deliver. -/
def deliverReservation (db : Db) (key : String) (i : DeliverInput) : Db × Response :=
  match findReservation db key with
  | none => (db, .error 404 "Not found")
  | some r =>
    let r1 := deliverRecord r i
    (saveReservation (mutateFound db key r1) r1, .ok r1)

/-- A request to one of the lifecycle routes, with the session it carries. -/
inductive Request where
  | create (i : CreateInput)
  | assignTracking (session : Option Session) (key : String) (i : AssignInput)
  | edit (session : Option Session) (key : String) (i : EditInput)
  | moveToLoading (session : Option Session) (key : String) (now1 now2 : String)
  | markReady (session : Option Session) (key : String) (now1 now2 : String)
  | claim (session : Option Session) (key : String) (now1 now2 : String)
  | deliver (session : Option Session) (key : String) (i : DeliverInput)

/-- The `req.session.user` of a request. -/
def sessionUser (session : Option Session) : Option String :=
  match session with
  | some s => s.user
  | none => none

/-- The route table: each route with its `requireRole` middleware. -/
def handle (db : Db) : Request → Db × Response
  | .create i => createReservation db i
  | .assignTracking session key i =>
    requireRole "frontdesk" session db (fun d => assignTracking d key i)
  | .edit session key i =>
    requireRole "frontdesk" session db (fun d => editReservation d key i)
  | .moveToLoading session key now1 now2 =>
    requireRole "store" session db (fun d => moveToLoading d key now1 now2)
  | .markReady session key now1 now2 =>
    requireRole "store" session db (fun d => markReady d key now1 now2)
  | .claim session key now1 now2 =>
    requireRole "driver" session db
      (fun d => claimReservation d (sessionUser session) key now1 now2)
  | .deliver session key i =>
    requireRole "driver" session db (fun d => deliverReservation d key i)

/-- The store after a sequence of requests. -/
def run (db : Db) (requests : List Request) : Db :=
  requests.foldl (fun d q => (handle d q).1) db

/-! ## Vocabulary of the theorems -/

/-- How a request can rewrite the record it resolves to. -/
def RecordStep : Request → Reservation → Reservation → Prop
  | .create _, _, _ => False
  | .assignTracking _ _ i, r, r' =>
    r' = assignFields r i ∨ ∃ shown, r' = assignRecord r i shown
  | .edit _ _ i, r, r' => r' = editRecord r i
  | .moveToLoading _ _ now1 now2, r, r' =>
    r' = readyRecord r "moved_to_loading" "Moved to loading bay" now1 now2
  | .markReady _ _ now1 now2, r, r' =>
    r' = readyRecord r "marked_ready" "Marked ready for delivery" now1 now2
  | .claim session _ now1 now2, r, r' => r' = claimRecord r (sessionUser session) now1 now2
  | .deliver _ _ i, r, r' => r' = deliverRecord r i

/-- Whether a request, if it is a create, draws an id no stored record has. -/
def drawsFreshId (db : Db) : Request → Bool
  | .create i => !(db.any (fun r => r.id == "R" ++ toUpperCase i.nano))
  | _ => true

/-- Whether a request is an assign-tracking call. -/
def isAssignTracking : Request → Bool
  | .assignTracking _ _ _ => true
  | _ => false

/-- The HTTP status of a response. -/
def statusCode : Response → Nat
  | .created _ _ => 201
  | .ok _ => 200
  | .error status _ => status
  | .redirect _ => 302
  | .serverError => 500

/-- The event types of a record, oldest first. -/
def eventTypes (r : Reservation) : List String :=
  r.events.map (fun e => e.eventType)

/-! ## Sample requests -/

/-- A create request for a box, with the given `nanoid` draw. -/
def boxInput (nano : String) : CreateInput :=
  ⟨none, none, some (.str "box"), none, none, nano, "t0", "t0", "t0", "http://localhost"⟩

/-- A session logged in under the given role. -/
def loggedIn (role : String) : Option Session :=
  some ⟨some role, some role⟩

/-- An edit request that supplies no field. -/
def noEdits : EditInput :=
  ⟨none, none, none, none, none, none, "t1", "t1"⟩

/-- An assign-tracking body carrying the tracking number `label`. -/
def labelInput (label : String) : AssignInput :=
  ⟨some (.str label), none, none, "x7y8z9", "t2", "t2"⟩

/-- An assign-tracking request with an empty body. -/
def emptyAssign : AssignInput :=
  ⟨none, none, none, "x7y8z9", "t2", "t2"⟩

/-- A create followed by an assign-tracking call that labels the record
`T-ABC123`. -/
def createThenLabel : List Request :=
  [.create (boxInput "a1b2c3"),
    .assignTracking (loggedIn "frontdesk") "RA1B2C3" (labelInput "T-ABC123")]

/-- The record `createThenLabel` leaves in the store. -/
def labelledRecord : Reservation :=
  assignRecord (newReservation (boxInput "a1b2c3") (.str "box")) (labelInput "T-ABC123")
    "T-ABC123"

/-- Two creates, then an assign-tracking call that labels the first record
`T-ABC123`. -/
def createTwoLabelFirst : List Request :=
  [.create (boxInput "a1b2c3"), .create (boxInput "d4e5f6"),
    .assignTracking (loggedIn "frontdesk") "RA1B2C3" (labelInput "T-ABC123")]

/-- Two creates, then an assign-tracking call that gives the second record the
id of the first as its tracking number. -/
def labelWithStoredId : List Request :=
  [.create (boxInput "a1b2c3"), .create (boxInput "d4e5f6"),
    .assignTracking (loggedIn "frontdesk") "RD4E5F6" (labelInput "RA1B2C3")]

/-- A create request whose item description is the given value. -/
def describedInput (description : Option JsValue) : CreateInput :=
  ⟨none, none, description, none, none, "a1b2c3", "t0", "t0", "t0", "http://localhost"⟩

/-- A record that is out for delivery with driver `driver`. -/
def claimedRecord : Reservation :=
  claimRecord (newReservation (boxInput "a1b2c3") (.str "box")) (some "driver") "t3" "t3"

/-- The record created for a box of customer Ann. -/
def annRecord : Reservation :=
  newReservation
    ⟨some (.str "Ann"), none, some (.str "box"), none, none, "a1b2c3", "t0", "t0", "t0",
      "http://localhost"⟩
    (.str "box")

/-- The scenario of the specification up to the first claim: create, assign
tracking `T-ABC123`, mark ready, claim. -/
def scenarioToClaim : List Request :=
  [.create (boxInput "a1b2c3"),
    .assignTracking (loggedIn "frontdesk") "RA1B2C3" (labelInput "T-ABC123"),
    .markReady (loggedIn "store") "RA1B2C3" "t3" "t3",
    .claim (loggedIn "driver") "RA1B2C3" "t4" "t4"]

/-- An edit request that supplies a new item description and `null` as the
customer name. -/
def relabelEdit : EditInput :=
  ⟨some (.str "crate"), some .null, none, none, none, none, "t1", "t1"⟩

/-- A deliver request without upload, with the given `proofType` and the
`proofValue` `left at door`. -/
def doorProof (proofType : Option JsValue) : DeliverInput :=
  ⟨none, proofType, some (.str "left at door"), "t5", "t5"⟩

/-- A create followed by a deliver whose body has a `proofValue` but no
`proofType`. -/
def deliverUntyped : List Request :=
  [.create (boxInput "a1b2c3"), .deliver (loggedIn "driver") "RA1B2C3" (doorProof none)]

/-- A create followed by an edit of the record created. -/
def createThenEdit : List Request :=
  [.create (boxInput "a1b2c3"), .edit (loggedIn "frontdesk") "RA1B2C3" noEdits]

end HomeAmazon

namespace HomeAmazon

/-! ## The array operations -/

theorem findIdx?_cons_zero {α : Type} (p : α → Bool) (x : α) (xs : List α) :
    (x :: xs).findIdx? p = if p x then some 0 else (xs.findIdx? p).map (· + 1) := by
  simp [List.findIdx?_cons, List.findIdx?_succ]

theorem saveReservation_nil (x : Reservation) : saveReservation [] x = [x] := rfl

theorem saveReservation_cons (r x : Reservation) (rest : Db) :
    saveReservation (r :: rest) x =
      if r.id = x.id then x :: rest else r :: saveReservation rest x := by
  unfold saveReservation
  rw [findIdx?_cons_zero]
  by_cases h : r.id = x.id
  · simp [h]
  · simp only [beq_iff_eq, h, if_false]
    cases rest.findIdx? (fun r => r.id == x.id) <;> simp

theorem mutateFound_nil (key : String) (u : Reservation) : mutateFound [] key u = [] := rfl

theorem mutateFound_cons (r u : Reservation) (rest : Db) (key : String) :
    mutateFound (r :: rest) key u =
      if matchesKey key r then u :: rest else r :: mutateFound rest key u := by
  unfold mutateFound
  rw [findIdx?_cons_zero]
  by_cases h : matchesKey key r = true
  · simp [h]
  · simp only [h, if_false]
    cases rest.findIdx? (matchesKey key) <;> simp

theorem findReservation_cons (r : Reservation) (rest : Db) (key : String) :
    findReservation (r :: rest) key =
      if matchesKey key r then some r else findReservation rest key := by
  unfold findReservation
  by_cases h : matchesKey key r = true
  · simp [h]
  · simp [h]

theorem findReservation_mem {db : Db} {key : String} {r : Reservation}
    (h : findReservation db key = some r) : r ∈ db :=
  List.mem_of_find?_eq_some h

theorem saveReservation_unseen (db : Db) (x : Reservation)
    (h : ∀ r ∈ db, r.id ≠ x.id) : saveReservation db x = db ++ [x] := by
  induction db with
  | nil => rfl
  | cons a rest ih =>
    rw [saveReservation_cons, if_neg (h a (List.mem_cons_self a rest)),
      ih (fun r hr => h r (List.mem_cons_of_mem a hr))]
    rfl

theorem saveReservation_seen (front back : Db) (old x : Reservation)
    (hfront : ∀ r ∈ front, r.id ≠ x.id) (hold : old.id = x.id) :
    saveReservation (front ++ old :: back) x = front ++ x :: back := by
  induction front with
  | nil => simp [saveReservation_cons, hold]
  | cons a rest ih =>
    rw [List.cons_append, saveReservation_cons, if_neg (hfront a (List.mem_cons_self a rest)),
      ih (fun r hr => hfront r (List.mem_cons_of_mem a hr))]
    rfl

theorem saveReservation_ids (db : Db) (x : Reservation) :
    (saveReservation db x).map (fun r => r.id) =
      if x.id ∈ db.map (fun r => r.id) then db.map (fun r => r.id)
      else db.map (fun r => r.id) ++ [x.id] := by
  induction db with
  | nil => simp [saveReservation_nil]
  | cons a rest ih =>
    rw [saveReservation_cons]
    by_cases h : a.id = x.id
    · simp [h]
    · rw [if_neg h, List.map_cons, ih]
      have h' : ¬ x.id = a.id := fun e => h e.symm
      by_cases hm : x.id ∈ rest.map (fun r => r.id)
      · simp [hm]
      · simp [hm, h']

theorem saveReservation_nodup (db : Db) (x : Reservation)
    (h : (db.map (fun r => r.id)).Nodup) :
    ((saveReservation db x).map (fun r => r.id)).Nodup := by
  rw [saveReservation_ids]
  by_cases hm : x.id ∈ db.map (fun r => r.id)
  · rw [if_pos hm]; exact h
  · rw [if_neg hm]
    rw [List.nodup_append]
    refine ⟨h, List.nodup_singleton _, ?_⟩
    intro a ha hb
    rw [List.mem_singleton] at hb
    exact hm (hb ▸ ha)

theorem mem_saveReservation_self (db : Db) (x : Reservation) : x ∈ saveReservation db x := by
  induction db with
  | nil => simp [saveReservation_nil]
  | cons a rest ih =>
    rw [saveReservation_cons]
    by_cases h : a.id = x.id
    · simp [h]
    · rw [if_neg h]; exact List.mem_cons_of_mem a ih

theorem mem_saveReservation {db : Db} {x r : Reservation}
    (h : r ∈ saveReservation db x) : r ∈ db ∨ r = x := by
  induction db with
  | nil =>
    rw [saveReservation_nil, List.mem_singleton] at h
    exact Or.inr h
  | cons a rest ih =>
    rw [saveReservation_cons] at h
    by_cases e : a.id = x.id
    · rw [if_pos e, List.mem_cons] at h
      rcases h with h | h
      · exact Or.inr h
      · exact Or.inl (List.mem_cons_of_mem a h)
    · rw [if_neg e, List.mem_cons] at h
      rcases h with h | h
      · exact Or.inl (h ▸ List.mem_cons_self a rest)
      · rcases ih h with h | h
        · exact Or.inl (List.mem_cons_of_mem a h)
        · exact Or.inr h

theorem mem_mutateFound {db : Db} {key : String} {u r : Reservation}
    (h : r ∈ mutateFound db key u) : r ∈ db ∨ r = u := by
  induction db with
  | nil => rw [mutateFound_nil] at h; exact Or.inl h
  | cons a rest ih =>
    rw [mutateFound_cons] at h
    by_cases e : matchesKey key a = true
    · rw [if_pos e, List.mem_cons] at h
      rcases h with h | h
      · exact Or.inr h
      · exact Or.inl (List.mem_cons_of_mem a h)
    · rw [if_neg e, List.mem_cons] at h
      rcases h with h | h
      · exact Or.inl (h ▸ List.mem_cons_self a rest)
      · rcases ih h with h | h
        · exact Or.inl (List.mem_cons_of_mem a h)
        · exact Or.inr h

theorem mutateFound_found {db : Db} {key : String} {r : Reservation} (u : Reservation)
    (h : findReservation db key = some r) :
    ∃ front back, db = front ++ r :: back ∧ mutateFound db key u = front ++ u :: back := by
  induction db with
  | nil => simp [findReservation] at h
  | cons a rest ih =>
    rw [findReservation_cons] at h
    rw [mutateFound_cons]
    by_cases e : matchesKey key a = true
    · rw [if_pos e] at h
      rw [if_pos e]
      injection h with h
      subst h
      exact ⟨[], rest, rfl, rfl⟩
    · rw [if_neg e] at h
      rw [if_neg e]
      obtain ⟨front, back, h1, h2⟩ := ih h
      exact ⟨a :: front, back, by rw [h1]; rfl, by rw [h2]; rfl⟩

theorem mutateFound_ids {db : Db} {key : String} {r : Reservation} (u : Reservation)
    (h : findReservation db key = some r) (hid : u.id = r.id) :
    (mutateFound db key u).map (fun x => x.id) = db.map (fun x => x.id) := by
  obtain ⟨front, back, h1, h2⟩ := mutateFound_found u h
  rw [h2, h1]
  simp [hid]

/-- With pairwise distinct ids, mutating the found record in place and saving
it is a replacement at the position of the found record. -/
theorem update_found {db : Db} {key : String} {r : Reservation} (u : Reservation)
    (hnd : (db.map (fun x => x.id)).Nodup)
    (h : findReservation db key = some r) (hid : u.id = r.id) :
    ∃ front back, db = front ++ r :: back ∧
      saveReservation (mutateFound db key u) u = front ++ u :: back := by
  induction db with
  | nil => simp [findReservation] at h
  | cons a rest ih =>
    rw [findReservation_cons] at h
    rw [mutateFound_cons]
    by_cases e : matchesKey key a = true
    · rw [if_pos e] at h
      rw [if_pos e]
      injection h with h
      subst h
      exact ⟨[], rest, rfl, by simp [saveReservation_cons]⟩
    · rw [if_neg e] at h
      rw [if_neg e]
      rw [List.map_cons, List.nodup_cons] at hnd
      obtain ⟨front, back, h1, h2⟩ := ih hnd.2 h
      have hne : ¬ a.id = u.id := by
        intro e'
        apply hnd.1
        rw [e', hid]
        exact List.mem_map_of_mem (fun x => x.id) (findReservation_mem h)
      refine ⟨a :: front, back, by rw [h1]; rfl, ?_⟩
      rw [saveReservation_cons, if_neg hne, h2]
      rfl

theorem mem_replaced {front back : List Reservation} {r u a : Reservation}
    (h : a ∈ front ++ r :: back) :
    ∃ b ∈ front ++ u :: back, b = a ∨ (a = r ∧ b = u) := by
  rw [List.mem_append, List.mem_cons] at h
  rcases h with h | h | h
  · exact ⟨a, by simp [h], Or.inl rfl⟩
  · exact ⟨u, by simp, Or.inr ⟨h, rfl⟩⟩
  · exact ⟨a, by simp [h], Or.inl rfl⟩

/-! ## One request -/

theorem RecordStep_id {q : Request} {r u : Reservation} (h : RecordStep q r u) :
    u.id = r.id := by
  cases q with
  | create i => exact absurd h id
  | assignTracking s k i =>
    rcases h with h | ⟨shown, h⟩ <;> rw [h] <;> rfl
  | edit s k i => rw [show u = editRecord r i from h]; rfl
  | moveToLoading s k n1 n2 =>
    rw [show u = readyRecord r "moved_to_loading" "Moved to loading bay" n1 n2 from h]; rfl
  | markReady s k n1 n2 =>
    rw [show u = readyRecord r "marked_ready" "Marked ready for delivery" n1 n2 from h]; rfl
  | claim s k n1 n2 => rw [show u = claimRecord r (sessionUser s) n1 n2 from h]; rfl
  | deliver s k i => rw [show u = deliverRecord r i from h]; rfl

theorem requireRole_eq (role : String) (session : Option Session) (db : Db)
    (next : Db → Db × Response) :
    requireRole role session db next = next db ∨
      (roleMatches role session = false ∧
        requireRole role session db next = (db, .redirect ("/login?role=" ++ role))) := by
  unfold requireRole
  cases h : roleMatches role session
  · right; simp
  · left; simp

theorem createReservation_shape (db : Db) (i : CreateInput) :
    (createReservation db i).1 = db ∨
      ∃ v, (createReservation db i).1 = saveReservation db (newReservation i v) := by
  unfold createReservation
  split
  · left; rfl
  · split
    · split
      · left; rfl
      · right; exact ⟨_, rfl⟩
    · left; rfl

/-- The shape of the store after one request, for a store with pairwise
distinct ids: unchanged, or a save of a new record, or one record rewritten in
place. -/
theorem handle_shape (db : Db) (q : Request) (hnd : (db.map (fun x => x.id)).Nodup) :
    (handle db q).1 = db ∨
    (∃ i v, q = .create i ∧ (handle db q).1 = saveReservation db (newReservation i v)) ∨
    (∃ front back r u, db = front ++ r :: back ∧ (handle db q).1 = front ++ u :: back ∧
      RecordStep q r u) := by
  cases q with
  | create i =>
    rcases createReservation_shape db i with h | ⟨v, h⟩
    · left; exact h
    · right; left; exact ⟨i, v, rfl, h⟩
  | assignTracking s k i =>
    simp only [handle]
    rcases requireRole_eq "frontdesk" s db (fun d => assignTracking d k i) with h | ⟨_, h⟩
    · rw [h]
      cases hf : findReservation db k with
      | none => left; simp only [assignTracking, hf]
      | some r =>
        right; right
        cases hs : jsToString (assignFields r i).trackingNumber with
        | none =>
          obtain ⟨front, back, h1, h2⟩ := mutateFound_found (assignFields r i) hf
          refine ⟨front, back, r, _, h1, ?_, Or.inl rfl⟩
          simp only [assignTracking, hf, hs]
          exact h2
        | some shown =>
          obtain ⟨front, back, h1, h2⟩ := update_found (assignRecord r i shown) hnd hf rfl
          refine ⟨front, back, r, _, h1, ?_, Or.inr ⟨shown, rfl⟩⟩
          simp only [assignTracking, hf, hs]
          exact h2
    · left; rw [h]
  | edit s k i =>
    simp only [handle]
    rcases requireRole_eq "frontdesk" s db (fun d => editReservation d k i) with h | ⟨_, h⟩
    · rw [h]
      simp only [editReservation]
      cases hf : findReservation db k with
      | none => left; rfl
      | some r =>
        right; right
        obtain ⟨front, back, h1, h2⟩ := update_found (editRecord r i) hnd hf rfl
        exact ⟨front, back, r, _, h1, h2, rfl⟩
    · left; rw [h]
  | moveToLoading s k n1 n2 =>
    simp only [handle]
    rcases requireRole_eq "store" s db (fun d => moveToLoading d k n1 n2) with h | ⟨_, h⟩
    · rw [h]
      simp only [moveToLoading]
      cases hf : findReservation db k with
      | none => left; rfl
      | some r =>
        right; right
        obtain ⟨front, back, h1, h2⟩ := update_found
          (readyRecord r "moved_to_loading" "Moved to loading bay" n1 n2) hnd hf rfl
        exact ⟨front, back, r, _, h1, h2, rfl⟩
    · left; rw [h]
  | markReady s k n1 n2 =>
    simp only [handle]
    rcases requireRole_eq "store" s db (fun d => markReady d k n1 n2) with h | ⟨_, h⟩
    · rw [h]
      simp only [markReady]
      cases hf : findReservation db k with
      | none => left; rfl
      | some r =>
        right; right
        obtain ⟨front, back, h1, h2⟩ := update_found
          (readyRecord r "marked_ready" "Marked ready for delivery" n1 n2) hnd hf rfl
        exact ⟨front, back, r, _, h1, h2, rfl⟩
    · left; rw [h]
  | claim s k n1 n2 =>
    simp only [handle]
    rcases requireRole_eq "driver" s db
      (fun d => claimReservation d (sessionUser s) k n1 n2) with h | ⟨_, h⟩
    · rw [h]
      simp only [claimReservation]
      cases hf : findReservation db k with
      | none => left; rfl
      | some r =>
        simp only []
        split
        · left; rfl
        · right; right
          obtain ⟨front, back, h1, h2⟩ := update_found
            (claimRecord r (sessionUser s) n1 n2) hnd hf rfl
          exact ⟨front, back, r, _, h1, h2, rfl⟩
    · left; rw [h]
  | deliver s k i =>
    simp only [handle]
    rcases requireRole_eq "driver" s db (fun d => deliverReservation d k i) with h | ⟨_, h⟩
    · rw [h]
      simp only [deliverReservation]
      cases hf : findReservation db k with
      | none => left; rfl
      | some r =>
        right; right
        obtain ⟨front, back, h1, h2⟩ := update_found (deliverRecord r i) hnd hf rfl
        exact ⟨front, back, r, _, h1, h2, rfl⟩
    · left; rw [h]

theorem handle_ids_nodup (db : Db) (q : Request) (hnd : (db.map (fun x => x.id)).Nodup) :
    ((handle db q).1.map (fun x => x.id)).Nodup := by
  rcases handle_shape db q hnd with h | ⟨i, v, _, h⟩ | ⟨front, back, r, u, h1, h2, hstep⟩
  · rw [h]; exact hnd
  · rw [h]; exact saveReservation_nodup db _ hnd
  · rw [h2]
    rw [h1] at hnd
    simpa [RecordStep_id hstep] using hnd

/-! ## Sequences of requests -/

theorem run_nil (db : Db) : run db [] = db := rfl

theorem run_cons (db : Db) (q : Request) (rest : List Request) :
    run db (q :: rest) = run (handle db q).1 rest := rfl

theorem run_append (db : Db) (qs rest : List Request) :
    run db (qs ++ rest) = run (run db qs) rest := by
  unfold run
  rw [List.foldl_append]

/-- An invariant of the store that every request keeps holds after every
sequence of requests. -/
theorem run_invariant (P : Db → Prop) (hstep : ∀ db q, P db → P (handle db q).1)
    (requests : List Request) : ∀ db, P db → P (run db requests) := by
  induction requests with
  | nil => intro db h; exact h
  | cons q rest ih => intro db h; exact ih _ (hstep db q h)

/-- Ids stay pairwise distinct in every store built from the empty one. -/
theorem run_ids_nodup (requests : List Request) :
    ((run [] requests).map (fun x => x.id)).Nodup :=
  run_invariant (fun db => (db.map (fun x => x.id)).Nodup) handle_ids_nodup requests []
    List.nodup_nil

/-- A property of records that new records have and every rewrite keeps holds
of every record of every store built from the empty one. -/
theorem run_record_invariant (P : Reservation → Prop)
    (hnew : ∀ i v, P (newReservation i v))
    (hstep : ∀ q r u, P r → RecordStep q r u → P u)
    (requests : List Request) : ∀ r ∈ run [] requests, P r := by
  have key := run_invariant
    (fun db : Db => (db.map (fun x => x.id)).Nodup ∧ ∀ r ∈ db, P r) ?_ requests []
    ⟨List.nodup_nil, fun r hr => absurd hr (List.not_mem_nil r)⟩
  · exact key.2
  · intro db q ⟨hnd, hP⟩
    refine ⟨handle_ids_nodup db q hnd, ?_⟩
    rcases handle_shape db q hnd with h | ⟨i, v, _, h⟩ | ⟨front, back, r, u, h1, h2, hs⟩
    · rw [h]; exact hP
    · rw [h]
      intro x hx
      rcases mem_saveReservation hx with hx | hx
      · exact hP x hx
      · rw [hx]; exact hnew i v
    · rw [h2]
      intro x hx
      rw [List.mem_append, List.mem_cons] at hx
      have hr : P r := hP r (by rw [h1]; simp)
      rcases hx with hx | hx | hx
      · exact hP x (by rw [h1]; simp [hx])
      · rw [hx]; exact hstep q r u hr hs
      · exact hP x (by rw [h1]; simp [hx])

theorem RecordStep_events {q : Request} {r u : Reservation} (h : RecordStep q r u) :
    ∃ extra, u.events = r.events ++ extra := by
  cases q with
  | create i => exact absurd h id
  | assignTracking s k i =>
    rcases h with h | ⟨shown, h⟩
    · exact ⟨[], by rw [h, List.append_nil]; rfl⟩
    · exact ⟨_, by rw [h]; rfl⟩
  | edit s k i => exact ⟨_, by rw [show u = editRecord r i from h]; rfl⟩
  | moveToLoading s k n1 n2 =>
    exact ⟨_, by
      rw [show u = readyRecord r "moved_to_loading" "Moved to loading bay" n1 n2 from h]; rfl⟩
  | markReady s k n1 n2 =>
    exact ⟨_, by
      rw [show u = readyRecord r "marked_ready" "Marked ready for delivery" n1 n2 from h]; rfl⟩
  | claim s k n1 n2 =>
    exact ⟨_, by rw [show u = claimRecord r (sessionUser s) n1 n2 from h]; rfl⟩
  | deliver s k i => exact ⟨_, by rw [show u = deliverRecord r i from h]; rfl⟩

/-- Every stored record has, after a request that does not redraw a stored id,
a successor: itself or its rewrite by the request. -/
theorem handle_forward (db : Db) (q : Request) (hnd : (db.map (fun x => x.id)).Nodup)
    (hfresh : drawsFreshId db q = true) :
    ∀ r ∈ db, ∃ r' ∈ (handle db q).1, r' = r ∨ RecordStep q r r' := by
  intro a ha
  rcases handle_shape db q hnd with h | ⟨i, v, hq, h⟩ | ⟨front, back, r, u, h1, h2, hs⟩
  · exact ⟨a, by rw [h]; exact ha, Or.inl rfl⟩
  · refine ⟨a, ?_, Or.inl rfl⟩
    rw [h, saveReservation_unseen]
    · exact List.mem_append_left _ ha
    · intro x hx e
      rw [hq] at hfresh
      simp only [drawsFreshId, Bool.not_eq_true', List.any_eq_false, beq_iff_eq] at hfresh
      exact hfresh x hx e
  · rw [h1] at ha
    obtain ⟨b, hb, hab⟩ := mem_replaced (u := u) ha
    refine ⟨b, by rw [h2]; exact hb, ?_⟩
    rcases hab with hab | ⟨e1, e2⟩
    · exact Or.inl hab
    · right; rw [e1, e2]; exact hs

/-- The scenario of the specification, run on the model: the record is
`reserved` with one event after the create, `checked_in` with two after the
labelling, `ready` with three after mark-ready, `out_for_delivery` with four
after the claim; a second claim answers 409 and a deliver with text proof
gives `delivered` with five events. -/
theorem lifecycle_scenario :
    (run [] (scenarioToClaim.take 1)).map (fun r => (r.status, r.events.length)) =
      [("reserved", 1)] ∧
    (run [] (scenarioToClaim.take 2)).map (fun r => (r.status, r.events.length)) =
      [("checked_in", 2)] ∧
    (run [] (scenarioToClaim.take 3)).map (fun r => (r.status, r.events.length)) =
      [("ready", 3)] ∧
    (run [] scenarioToClaim).map (fun r => (r.status, r.driverId, r.events.length)) =
      [("out_for_delivery", some "driver", 4)] ∧
    statusCode (handle (run [] scenarioToClaim)
      (.claim (loggedIn "driver") "RA1B2C3" "t5" "t5")).2 = 409 ∧
    ((handle (run [] scenarioToClaim) (.deliver (loggedIn "driver") "T-ABC123"
      (doorProof (some (.str "text"))))).1).map
        (fun r => (r.status, r.proof.isSome, eventTypes r)) =
      [("delivered", true,
        ["reserved", "checked_in", "marked_ready", "claimed", "delivered"])] := by
  decide

/-! ## The claims -/

/-- C8: in every store built from the empty one by lifecycle requests, whatever
the identifier generator returns, the ids are pairwise distinct;
`saveReservation` appends a record whose id is unseen, and otherwise replaces
the record stored under that id, every other record and the storage order
staying as they were. -/
theorem ids_unique_and_saveReservation_upserts :
    (∀ requests : List Request, ((run [] requests).map (fun r => r.id)).Nodup) ∧
    (∀ (db : Db) (x : Reservation), (∀ r ∈ db, r.id ≠ x.id) →
      saveReservation db x = db ++ [x]) ∧
    (∀ (front back : Db) (old x : Reservation), (∀ r ∈ front, r.id ≠ x.id) →
      old.id = x.id → saveReservation (front ++ old :: back) x = front ++ x :: back) :=
  ⟨run_ids_nodup, saveReservation_unseen, saveReservation_seen⟩

/-- C8, at a concrete store: saving the edited copy of the second of two stored
records replaces that record and keeps the first. -/
theorem ids_unique_and_saveReservation_upserts_witness :
    saveReservation ([annRecord] ++ newReservation (boxInput "d4e5f6") (.str "box") :: [])
        (editRecord (newReservation (boxInput "d4e5f6") (.str "box")) relabelEdit) =
      [annRecord] ++
        editRecord (newReservation (boxInput "d4e5f6") (.str "box")) relabelEdit :: [] :=
  ids_unique_and_saveReservation_upserts.2.2 [annRecord] []
    (newReservation (boxInput "d4e5f6") (.str "box"))
    (editRecord (newReservation (boxInput "d4e5f6") (.str "box")) relabelEdit)
    (by decide) rfl

/-- C1, refuted as stated: after a create and an edit the record `RA1B2C3` has
two events; a further create whose generated id is again `RA1B2C3` replaces it
by a fresh record with one event. -/
theorem create_with_stored_id_shrinks_events :
    (run [] createThenEdit).map (fun r => (r.id, r.events.length)) = [("RA1B2C3", 2)] ∧
    ((handle (run [] createThenEdit) (.create (boxInput "a1b2c3"))).1).map
      (fun r => (r.id, r.events.length)) = [("RA1B2C3", 1)] := by
  decide

/-- C1, amended: in every store built from the empty one, the first event of
every record has type `reserved`; and across any further request that, if it is
a create, draws an id not yet stored, every stored record keeps its id and its
events list does not get shorter. -/
theorem events_grow_and_start_reserved (requests : List Request) :
    (∀ r ∈ run [] requests, (eventTypes r).head? = some "reserved") ∧
    (∀ q, drawsFreshId (run [] requests) q = true → ∀ r ∈ run [] requests,
      ∃ r' ∈ (handle (run [] requests) q).1,
        r'.id = r.id ∧ r.events.length ≤ r'.events.length) := by
  constructor
  · apply run_record_invariant (fun r => (eventTypes r).head? = some "reserved")
    · intro i v; rfl
    · intro q r u hr hs
      obtain ⟨extra, he⟩ := RecordStep_events hs
      simp only [eventTypes] at hr ⊢
      rw [he, List.map_append]
      cases hmap : r.events.map (fun e => e.eventType) with
      | nil => rw [hmap] at hr; simp at hr
      | cons e rest => rw [hmap] at hr; simpa using hr
  · intro q hfresh r hr
    obtain ⟨r', hmem, h⟩ := handle_forward _ q (run_ids_nodup requests) hfresh r hr
    refine ⟨r', hmem, ?_⟩
    rcases h with h | h
    · rw [h]; exact ⟨rfl, le_refl _⟩
    · obtain ⟨extra, he⟩ := RecordStep_events h
      exact ⟨RecordStep_id h, by rw [he, List.length_append]; exact Nat.le_add_right _ _⟩

/-- C1, amended, at a concrete history: after a create and an edit, a create
drawing the new id `RD4E5F6` keeps the two events of `RA1B2C3`. -/
theorem events_grow_and_start_reserved_witness :
    drawsFreshId (run [] createThenEdit) (.create (boxInput "d4e5f6")) = true ∧
    ∀ r ∈ run [] createThenEdit,
      ∃ r' ∈ (handle (run [] createThenEdit) (.create (boxInput "d4e5f6"))).1,
        r'.id = r.id ∧ r.events.length ≤ r'.events.length :=
  ⟨by decide,
    (events_grow_and_start_reserved createThenEdit).2 (.create (boxInput "d4e5f6")) (by decide)⟩

theorem generated_tracking_truthy (nano : String) :
    truthy (.str ("T-" ++ toUpperCase nano)) = true := by
  simp only [truthy, Bool.not_eq_true', beq_eq_false_iff_ne, ne_eq]
  intro h
  have hl := congrArg String.length h
  rw [String.length_append] at hl
  have h2 : ("T-" : String).length = 2 := by decide
  have h0 : ("" : String).length = 0 := by decide
  omega

theorem orDefault_truthy (field : Option JsValue) (dflt : JsValue)
    (h : truthy dflt = true) : truthy (orDefault field dflt) = true := by
  unfold orDefault
  cases field with
  | none => exact h
  | some v =>
    by_cases hv : truthy v = true
    · simp [hv]
    · simp [hv, h]

theorem orDefault_of_truthy (v dflt : JsValue) (h : truthy v = true) :
    orDefault (some v) dflt = v := by
  simp [orDefault, h]

theorem RecordStep_trackingNumber {q : Request} {r u : Reservation}
    (h : RecordStep q r u) (hq : isAssignTracking q = false) :
    u.trackingNumber = r.trackingNumber := by
  cases q with
  | create i => exact absurd h id
  | assignTracking s k i => simp [isAssignTracking] at hq
  | edit s k i => rw [show u = editRecord r i from h]; rfl
  | moveToLoading s k n1 n2 =>
    rw [show u = readyRecord r "moved_to_loading" "Moved to loading bay" n1 n2 from h]; rfl
  | markReady s k n1 n2 =>
    rw [show u = readyRecord r "marked_ready" "Marked ready for delivery" n1 n2 from h]; rfl
  | claim s k n1 n2 => rw [show u = claimRecord r (sessionUser s) n1 n2 from h]; rfl
  | deliver s k i => rw [show u = deliverRecord r i from h]; rfl

theorem assignFields_trackingNumber_truthy (r : Reservation) (i : AssignInput) :
    truthy (assignFields r i).trackingNumber = true :=
  orDefault_truthy _ _ (generated_tracking_truthy i.nano)

/-- A stored tracking number is `null` or truthy. -/
theorem run_trackingNumber_null_or_truthy (requests : List Request) :
    ∀ r ∈ run [] requests, r.trackingNumber = .null ∨ truthy r.trackingNumber = true := by
  apply run_record_invariant
    (fun r => r.trackingNumber = .null ∨ truthy r.trackingNumber = true)
  · intro i v; exact Or.inl rfl
  · intro q r u hr hs
    cases hq : isAssignTracking q with
    | false => rw [RecordStep_trackingNumber hs hq]; exact hr
    | true =>
      cases q with
      | assignTracking s k i =>
        right
        rcases hs with hs | ⟨shown, hs⟩
        · rw [hs]; exact assignFields_trackingNumber_truthy r i
        · rw [hs]; exact assignFields_trackingNumber_truthy r i
      | _ => simp [isAssignTracking] at hq

/-- After an assign-tracking call that passes the role gate and resolves its
key, the store holds the rewritten record, whose tracking number is the one
`assignFields` computes. -/
theorem assignTracking_stores (db : Db) (session : Option Session) (key : String)
    (i : AssignInput) (r : Reservation)
    (hrole : roleMatches "frontdesk" session = true)
    (hf : findReservation db key = some r) :
    ∃ r' ∈ (handle db (.assignTracking session key i)).1,
      r'.id = r.id ∧ r'.trackingNumber = (assignFields r i).trackingNumber ∧
      r'.status = (assignFields r i).status := by
  simp only [handle, requireRole, hrole, if_true]
  cases hs : jsToString (assignFields r i).trackingNumber with
  | none =>
    obtain ⟨front, back, _, h2⟩ := mutateFound_found (assignFields r i) hf
    refine ⟨assignFields r i, ?_, rfl, rfl, rfl⟩
    simp only [assignTracking, hf, hs]
    rw [h2]; simp
  | some shown =>
    refine ⟨assignRecord r i shown, ?_, rfl, rfl, rfl⟩
    simp only [assignTracking, hf, hs]
    exact mem_saveReservation_self _ _

/-- C2, refuted as stated: a record labelled `T-ABC123` is relabelled
`T-DEF456` by a second assign-tracking call carrying `T-DEF456`, and
`T-X7Y8Z9` by one with an empty body, for which the generator draws
`x7y8z9`. -/
theorem second_assign_rewrites_trackingNumber :
    (run [] createThenLabel).map
      (fun r => (r.id, strictEqString r.trackingNumber "T-ABC123")) =
      [("RA1B2C3", true)] ∧
    ((handle (run [] createThenLabel)
        (.assignTracking (loggedIn "frontdesk") "RA1B2C3" (labelInput "T-DEF456"))).1).map
      (fun r => (r.id, strictEqString r.trackingNumber "T-ABC123",
        strictEqString r.trackingNumber "T-DEF456")) = [("RA1B2C3", false, true)] ∧
    ((handle (run [] createThenLabel)
        (.assignTracking (loggedIn "frontdesk") "RA1B2C3" emptyAssign)).1).map
      (fun r => (r.id, strictEqString r.trackingNumber "T-ABC123",
        strictEqString r.trackingNumber "T-X7Y8Z9")) = [("RA1B2C3", false, true)] := by
  decide

/-- An assign-tracking call leaves every stored record in place; the only
record whose tracking number it can change is the one its key resolves to, and
only when the call passes the role gate. -/
theorem assignTracking_frame (db : Db) (hnd : (db.map (fun x => x.id)).Nodup)
    (session : Option Session) (key : String) (i : AssignInput) :
    ∀ r ∈ db, ∃ r' ∈ (handle db (.assignTracking session key i)).1,
      r'.id = r.id ∧
      (r'.trackingNumber = r.trackingNumber ∨
        (roleMatches "frontdesk" session = true ∧ findReservation db key = some r)) := by
  intro a ha
  simp only [handle]
  rcases requireRole_eq "frontdesk" session db (fun d => assignTracking d key i)
    with h | ⟨_, h⟩
  · cases hrole : roleMatches "frontdesk" session with
    | false =>
      refine ⟨a, ?_, rfl, Or.inl rfl⟩
      simp only [requireRole, hrole]
      exact ha
    | true =>
      rw [h]
      cases hf : findReservation db key with
      | none =>
        refine ⟨a, ?_, rfl, Or.inl rfl⟩
        simp only [assignTracking, hf]
        exact ha
      | some r0 =>
        have hshape : ∃ front back u, db = front ++ r0 :: back ∧
            (assignTracking db key i).1 = front ++ u :: back ∧ u.id = r0.id := by
          cases hs : jsToString (assignFields r0 i).trackingNumber with
          | none =>
            obtain ⟨front, back, h1, h2⟩ := mutateFound_found (assignFields r0 i) hf
            refine ⟨front, back, assignFields r0 i, h1, ?_, rfl⟩
            simp only [assignTracking, hf, hs]
            exact h2
          | some shown =>
            obtain ⟨front, back, h1, h2⟩ :=
              update_found (assignRecord r0 i shown) hnd hf rfl
            refine ⟨front, back, assignRecord r0 i shown, h1, ?_, rfl⟩
            simp only [assignTracking, hf, hs]
            exact h2
        obtain ⟨front, back, u, h1, h2, hid⟩ := hshape
        have ha' : a ∈ front ++ r0 :: back := h1 ▸ ha
        obtain ⟨b, hb, hab⟩ := mem_replaced (u := u) ha'
        refine ⟨b, by rw [h2]; exact hb, ?_⟩
        rcases hab with hab | ⟨e1, e2⟩
        · rw [hab]; exact ⟨rfl, Or.inl rfl⟩
        · rw [e1, e2]; exact ⟨hid, Or.inr ⟨rfl, rfl⟩⟩
  · rw [h]
    exact ⟨a, ha, rfl, Or.inl rfl⟩

/-- C2, amended: in every store built from the empty one, a request other than
assign-tracking that, if it is a create, draws an id not yet stored leaves the
tracking number of every stored record as it was; an assign-tracking call keeps
every stored record and leaves the tracking number of each as it was, except
possibly that of the one record its key resolves to, and that only when the
call passes the role gate; such a call sets the tracking number of the record
it resolves to the truthy tracking number of its body; so a call whose body
carries the tracking number the record already has leaves it equal to its
previous value. -/
theorem trackingNumber_rewritten_only_by_assign (requests : List Request) :
    (∀ q, isAssignTracking q = false → drawsFreshId (run [] requests) q = true →
      ∀ r ∈ run [] requests, ∃ r' ∈ (handle (run [] requests) q).1,
        r'.id = r.id ∧ r'.trackingNumber = r.trackingNumber) ∧
    (∀ session key i, ∀ r ∈ run [] requests,
      ∃ r' ∈ (handle (run [] requests) (.assignTracking session key i)).1,
        r'.id = r.id ∧
        (r'.trackingNumber = r.trackingNumber ∨
          (roleMatches "frontdesk" session = true ∧
            findReservation (run [] requests) key = some r))) ∧
    (∀ session key i r t, roleMatches "frontdesk" session = true →
      findReservation (run [] requests) key = some r →
      i.trackingNumber = some t → truthy t = true →
      ∃ r' ∈ (handle (run [] requests) (.assignTracking session key i)).1,
        r'.id = r.id ∧ r'.trackingNumber = t) ∧
    (∀ session key i r, roleMatches "frontdesk" session = true →
      findReservation (run [] requests) key = some r →
      r.trackingNumber ≠ .null → i.trackingNumber = some r.trackingNumber →
      ∃ r' ∈ (handle (run [] requests) (.assignTracking session key i)).1,
        r'.id = r.id ∧ r'.trackingNumber = r.trackingNumber) := by
  have hset : ∀ session key i r t, roleMatches "frontdesk" session = true →
      findReservation (run [] requests) key = some r →
      i.trackingNumber = some t → truthy t = true →
      ∃ r' ∈ (handle (run [] requests) (.assignTracking session key i)).1,
        r'.id = r.id ∧ r'.trackingNumber = t := by
    intro session key i r t hrole hf hi ht
    obtain ⟨r', hmem, hid, htn, _⟩ := assignTracking_stores _ session key i r hrole hf
    refine ⟨r', hmem, hid, ?_⟩
    rw [htn]
    simp only [assignFields]
    rw [hi]
    exact orDefault_of_truthy t _ ht
  refine ⟨?_, ?_, hset, ?_⟩
  · intro q hq hfresh r hr
    obtain ⟨r', hmem, h⟩ := handle_forward _ q (run_ids_nodup requests) hfresh r hr
    refine ⟨r', hmem, ?_⟩
    rcases h with h | h
    · rw [h]; exact ⟨rfl, rfl⟩
    · exact ⟨RecordStep_id h, RecordStep_trackingNumber h hq⟩
  · intro session key i
    exact assignTracking_frame _ (run_ids_nodup requests) session key i
  · intro session key i r hrole hf hnn hi
    rcases run_trackingNumber_null_or_truthy requests r (findReservation_mem hf) with h | h
    · exact absurd h hnn
    · exact hset session key i r r.trackingNumber hrole hf hi h

/-- C2, amended, at a concrete history: a second assign-tracking call that
carries `T-ABC123` again leaves the tracking number of `RA1B2C3` equal to
`T-ABC123`; and in the store of two records, every record is still stored
after `RD4E5F6` is labelled `T-DEF456`, with its tracking number as it was
unless it is the record `RD4E5F6` resolves to. -/
theorem trackingNumber_rewritten_only_by_assign_witness :
    (∃ r' ∈ (handle (run [] createThenLabel)
        (.assignTracking (loggedIn "frontdesk") "RA1B2C3" (labelInput "T-ABC123"))).1,
      r'.id = "RA1B2C3" ∧ r'.trackingNumber = .str "T-ABC123") ∧
    (∀ r ∈ run [] createTwoLabelFirst,
      ∃ r' ∈ (handle (run [] createTwoLabelFirst)
          (.assignTracking (loggedIn "frontdesk") "RD4E5F6" (labelInput "T-DEF456"))).1,
        r'.id = r.id ∧
        (r'.trackingNumber = r.trackingNumber ∨
          (roleMatches "frontdesk" (loggedIn "frontdesk") = true ∧
            findReservation (run [] createTwoLabelFirst) "RD4E5F6" = some r))) :=
  ⟨(trackingNumber_rewritten_only_by_assign createThenLabel).2.2.2 (loggedIn "frontdesk")
    "RA1B2C3" (labelInput "T-ABC123") labelledRecord (by decide) (by rfl)
    (by simp [labelledRecord, assignRecord, assignFields, labelInput, orDefault, truthy])
    (by rfl),
   (trackingNumber_rewritten_only_by_assign createTwoLabelFirst).2.1 (loggedIn "frontdesk")
    "RD4E5F6" (labelInput "T-DEF456")⟩

theorem strictEqString_iff (v : JsValue) (key : String) :
    strictEqString v key = true ↔ v = .str key := by
  cases v <;> simp [strictEqString]

theorem matchesKey_iff (key : String) (r : Reservation) :
    matchesKey key r = true ↔ r.id = key ∨ r.trackingNumber = .str key := by
  simp [matchesKey, strictEqString_iff]

theorem findReservation_eq_none_iff (db : Db) (key : String) :
    findReservation db key = none ↔
      ∀ r ∈ db, r.id ≠ key ∧ r.trackingNumber ≠ .str key := by
  unfold findReservation
  rw [List.find?_eq_none]
  constructor
  · intro h r hr
    have := h r hr
    rw [matchesKey_iff] at this
    exact ⟨fun e => this (Or.inl e), fun e => this (Or.inr e)⟩
  · intro h r hr
    rw [matchesKey_iff]
    rintro (e | e)
    · exact (h r hr).1 e
    · exact (h r hr).2 e

theorem findReservation_first (front back : Db) (r : Reservation) (key : String)
    (hr : r.id = key ∨ r.trackingNumber = .str key)
    (hfront : ∀ x ∈ front, x.id ≠ key ∧ x.trackingNumber ≠ .str key) :
    findReservation (front ++ r :: back) key = some r := by
  induction front with
  | nil =>
    rw [List.nil_append, findReservation_cons, if_pos ((matchesKey_iff key r).2 hr)]
  | cons a rest ih =>
    have ha : ¬ matchesKey key a = true := by
      rw [matchesKey_iff]
      have := hfront a (List.mem_cons_self a rest)
      rintro (e | e)
      · exact this.1 e
      · exact this.2 e
    rw [List.cons_append, findReservation_cons, if_neg ha]
    exact ih (fun x hx => hfront x (List.mem_cons_of_mem a hx))

theorem findReservation_unique (db : Db) (r : Reservation) (key : String)
    (hnd : (db.map (fun x => x.id)).Nodup) (hr : r ∈ db)
    (hkey : r.id = key ∨ r.trackingNumber = .str key)
    (hothers : ∀ x ∈ db, x.id ≠ r.id → x.id ≠ key ∧ x.trackingNumber ≠ .str key) :
    findReservation db key = some r := by
  cases h : findReservation db key with
  | none =>
    have := (findReservation_eq_none_iff db key).1 h r hr
    rcases hkey with e | e
    · exact absurd e this.1
    · exact absurd e this.2
  | some x =>
    have hx : x ∈ db := findReservation_mem h
    have hm : matchesKey key x = true := List.find?_some h
    rw [matchesKey_iff] at hm
    have hid : x.id = r.id := by
      by_contra hne
      have := hothers x hx hne
      rcases hm with e | e
      · exact this.1 e
      · exact this.2 e
    rw [List.inj_on_of_nodup_map hnd hx hr hid]

/-- C3, refuted as stated: after two creates and an assign-tracking call that
labels `RD4E5F6` with the string `RA1B2C3`, the record `RD4E5F6` has tracking
number `RA1B2C3`, yet `findReservation` on `RA1B2C3` returns the record whose
id is `RA1B2C3`. -/
theorem findReservation_misses_record_labelled_with_stored_id :
    (run [] labelWithStoredId).map
      (fun r => (r.id, strictEqString r.trackingNumber "RA1B2C3")) =
      [("RA1B2C3", false), ("RD4E5F6", true)] ∧
    (findReservation (run [] labelWithStoredId) "RA1B2C3").map (fun r => r.id) =
      some "RA1B2C3" := by
  decide

/-- C3, amended: `findReservation` returns not-found exactly when no record has
the key as its id or tracking number, and otherwise the first record in storage
order that has; so in a store built from the empty one, a record with a string
tracking number is returned for its id and for its tracking number provided no
other record has either of the two as its id or tracking number. -/
theorem findReservation_first_match :
    (∀ (db : Db) (key : String), findReservation db key = none ↔
      ∀ r ∈ db, r.id ≠ key ∧ r.trackingNumber ≠ .str key) ∧
    (∀ (front back : Db) (r : Reservation) (key : String),
      (r.id = key ∨ r.trackingNumber = .str key) →
      (∀ x ∈ front, x.id ≠ key ∧ x.trackingNumber ≠ .str key) →
      findReservation (front ++ r :: back) key = some r) ∧
    (∀ (requests : List Request) (r : Reservation) (t : String),
      r ∈ run [] requests → r.trackingNumber = .str t →
      (∀ x ∈ run [] requests, x.id ≠ r.id →
        x.trackingNumber ≠ .str r.id ∧ x.id ≠ t ∧ x.trackingNumber ≠ .str t) →
      findReservation (run [] requests) r.id = some r ∧
      findReservation (run [] requests) t = some r) := by
  refine ⟨findReservation_eq_none_iff, findReservation_first, ?_⟩
  intro requests r t hr ht hothers
  constructor
  · exact findReservation_unique _ r r.id (run_ids_nodup requests) hr (Or.inl rfl)
      (fun x hx hne => ⟨hne, (hothers x hx hne).1⟩)
  · exact findReservation_unique _ r t (run_ids_nodup requests) hr (Or.inr ht)
      (fun x hx hne => (hothers x hx hne).2)

/-- C3, amended, at a concrete history: of the two records of the store, the
one labelled `T-ABC123` is found under its id `RA1B2C3` and under
`T-ABC123`. -/
theorem findReservation_first_match_witness :
    findReservation (run [] createTwoLabelFirst) "RA1B2C3" = some labelledRecord ∧
    findReservation (run [] createTwoLabelFirst) "T-ABC123" = some labelledRecord := by
  have hrun : run [] createTwoLabelFirst =
      [labelledRecord, newReservation (boxInput "d4e5f6") (.str "box")] := by
    rfl
  refine findReservation_first_match.2.2 createTwoLabelFirst labelledRecord "T-ABC123"
    ?_ (by rfl) ?_
  · rw [hrun]; exact List.mem_cons_self _ _
  · intro x hx hne
    rw [hrun, List.mem_cons, List.mem_singleton] at hx
    rcases hx with hx | hx
    · exact absurd (by rw [hx]) hne
    · rw [hx]
      refine ⟨?_, by decide, ?_⟩
      · intro h; cases h
      · intro h; cases h

theorem claimingDriver_truthy (user : Option String) :
    truthyString (some (claimingDriver user)) = true := by
  cases user with
  | none => decide
  | some u =>
    by_cases h : u = ""
    · subst h; decide
    · simp [claimingDriver, truthyString, h]

/-- A stored driver id is `null` or truthy. -/
theorem run_driverId_null_or_truthy (requests : List Request) :
    ∀ r ∈ run [] requests, r.driverId = none ∨ truthyString r.driverId = true := by
  apply run_record_invariant (fun r => r.driverId = none ∨ truthyString r.driverId = true)
  · intro i v; exact Or.inl rfl
  · intro q r u hr hs
    cases q with
    | create i => exact absurd hs id
    | assignTracking s k i =>
      rcases hs with hs | ⟨shown, hs⟩ <;> rw [hs] <;> exact hr
    | edit s k i => rw [show u = editRecord r i from hs]; exact hr
    | moveToLoading s k n1 n2 =>
      rw [show u = readyRecord r "moved_to_loading" "Moved to loading bay" n1 n2 from hs]
      exact hr
    | markReady s k n1 n2 =>
      rw [show u = readyRecord r "marked_ready" "Marked ready for delivery" n1 n2 from hs]
      exact hr
    | claim s k n1 n2 =>
      rw [show u = claimRecord r (sessionUser s) n1 n2 from hs]
      exact Or.inr (claimingDriver_truthy _)
    | deliver s k i => rw [show u = deliverRecord r i from hs]; exact hr

theorem claimReservation_conflict (db : Db) (key : String) (r : Reservation)
    (hf : findReservation db key = some r)
    (hstatus : r.status = "out_for_delivery")
    (hdriver : truthyString r.driverId = true) (user : Option String) (now1 now2 : String) :
    claimReservation db user key now1 now2 = (db, .error 409 "Already claimed") := by
  simp [claimReservation, hf, hstatus, hdriver]

/-- C4: for every store and every key that resolves to a record that is
`out_for_delivery` with a truthy driver id, the claim handler answers 409 and
returns the store as it was, whoever claims; the whole route leaves the store
unchanged for every session and answers 409 for a driver session.  In a store
built from the empty one the same holds as soon as the driver id is not
`null`. -/
theorem claim_conflict_leaves_store :
    (∀ (db : Db) (key : String) (r : Reservation),
      findReservation db key = some r → r.status = "out_for_delivery" →
      truthyString r.driverId = true →
      (∀ user now1 now2, claimReservation db user key now1 now2 =
        (db, .error 409 "Already claimed")) ∧
      (∀ session now1 now2, (handle db (.claim session key now1 now2)).1 = db) ∧
      (∀ session now1 now2, roleMatches "driver" session = true →
        handle db (.claim session key now1 now2) = (db, .error 409 "Already claimed"))) ∧
    (∀ (requests : List Request) (key : String) (r : Reservation),
      findReservation (run [] requests) key = some r → r.status = "out_for_delivery" →
      r.driverId ≠ none →
      ∀ session now1 now2, roleMatches "driver" session = true →
        handle (run [] requests) (.claim session key now1 now2) =
          (run [] requests, .error 409 "Already claimed")) := by
  have main : ∀ (db : Db) (key : String) (r : Reservation),
      findReservation db key = some r → r.status = "out_for_delivery" →
      truthyString r.driverId = true →
      (∀ user now1 now2, claimReservation db user key now1 now2 =
        (db, .error 409 "Already claimed")) ∧
      (∀ session now1 now2, (handle db (.claim session key now1 now2)).1 = db) ∧
      (∀ session now1 now2, roleMatches "driver" session = true →
        handle db (.claim session key now1 now2) = (db, .error 409 "Already claimed")) := by
    intro db key r hf hstatus hdriver
    have h1 := claimReservation_conflict db key r hf hstatus hdriver
    refine ⟨h1, ?_, ?_⟩
    · intro session now1 now2
      simp only [handle, requireRole]
      split
      · rw [h1]
      · rfl
    · intro session now1 now2 hrole
      simp only [handle, requireRole, hrole, if_true]
      exact h1 _ _ _
  refine ⟨main, ?_⟩
  intro requests key r hf hstatus hdriver session now1 now2 hrole
  rcases run_driverId_null_or_truthy requests r (findReservation_mem hf) with h | h
  · exact absurd h hdriver
  · exact (main _ key r hf hstatus h).2.2 session now1 now2 hrole

/-- C4, at a concrete store: a second claim on the claimed record `RA1B2C3` answers
409 and changes nothing. -/
theorem claim_conflict_leaves_store_witness :
    handle [claimedRecord] (.claim (loggedIn "driver") "RA1B2C3" "t4" "t4") =
      ([claimedRecord], .error 409 "Already claimed") :=
  (claim_conflict_leaves_store.1 [claimedRecord] "RA1B2C3" claimedRecord (by rfl) (by rfl)
    (by decide)).2.2 (loggedIn "driver") "t4" "t4" (by decide)

theorem trimIsEmpty_false_ne_empty {s : String} (h : trimIsEmpty s = false) :
    (s == "") = false := by
  rw [beq_eq_false_iff_ne]
  intro e
  subst e
  simp [trimIsEmpty] at h

/-- C5, refuted as stated: a create whose item description is the non-empty
string of one blank is rejected with 400 and stores nothing. -/
theorem create_rejects_blank_description :
    createReservation [] (describedInput (some (.str " "))) =
      ([], .error 400 "itemDescription required") := by
  rfl

/-- C5, amended: a create whose item description is missing, falsy (the empty
string included) or a string of white space only is rejected with 400 and the
store is unchanged; a create whose item description is a string with a
character that is not white space answers 201 and saves a record with status
`reserved` and exactly one event, of type `reserved`, which is appended to the
store when its id is not yet stored. -/
theorem createReservation_validates (db : Db) (i : CreateInput) :
    (truthyField i.itemDescription = false →
      createReservation db i = (db, .error 400 "itemDescription required")) ∧
    (∀ s, i.itemDescription = some (.str s) → trimIsEmpty s = true →
      createReservation db i = (db, .error 400 "itemDescription required")) ∧
    (∀ s, i.itemDescription = some (.str s) → trimIsEmpty s = false →
      ∃ r, createReservation db i =
          (saveReservation db r, .created r.id (i.baseUrl ++ "/track/" ++ r.id)) ∧
        r ∈ (createReservation db i).1 ∧
        statusCode (createReservation db i).2 = 201 ∧
        r.itemDescription = .str s ∧ r.status = "reserved" ∧ r.events.length = 1 ∧
        eventTypes r = ["reserved"] ∧
        ((∀ x ∈ db, x.id ≠ r.id) → (createReservation db i).1 = db ++ [r])) := by
  refine ⟨?_, ?_, ?_⟩
  · intro h
    simp [createReservation, h]
  · intro s hs ht
    simp [createReservation, hs, ht]
  · intro s hs ht
    have hne := trimIsEmpty_false_ne_empty ht
    have hcr : createReservation db i =
        (saveReservation db (newReservation i (.str s)),
          .created (newReservation i (.str s)).id
            (i.baseUrl ++ "/track/" ++ (newReservation i (.str s)).id)) := by
      simp [createReservation, hs, ht, truthyField, truthy, hne]
    refine ⟨newReservation i (.str s), hcr, ?_, ?_, rfl, rfl, rfl, rfl, ?_⟩
    · rw [hcr]; exact mem_saveReservation_self _ _
    · rw [hcr]; rfl
    · intro hx
      rw [hcr]
      exact saveReservation_unseen db _ hx

/-- C5, amended, at a concrete request: creating a `box` in the empty store
answers 201 and stores one record. -/
theorem createReservation_validates_witness :
    ∃ r, createReservation [] (boxInput "a1b2c3") =
        (saveReservation [] r, .created r.id ("http://localhost" ++ "/track/" ++ r.id)) ∧
      r ∈ (createReservation [] (boxInput "a1b2c3")).1 ∧
      statusCode (createReservation [] (boxInput "a1b2c3")).2 = 201 ∧
      r.itemDescription = .str "box" ∧ r.status = "reserved" ∧ r.events.length = 1 ∧
      eventTypes r = ["reserved"] ∧
      ((∀ x ∈ ([] : Db), x.id ≠ r.id) →
        (createReservation [] (boxInput "a1b2c3")).1 = [] ++ [r]) :=
  (createReservation_validates [] (boxInput "a1b2c3")).2.2 "box" rfl (by decide)

theorem assignFields_status (r : Reservation) (i : AssignInput) :
    (assignFields r i).status =
      if r.status = "reserved" then "checked_in" else r.status := by
  simp [assignFields]

theorem assignFields_status_ne_reserved (r : Reservation) (i : AssignInput) :
    (assignFields r i).status ≠ "reserved" := by
  rw [assignFields_status]
  split
  · decide
  · assumption

/-- When the key is the id of the record it resolves to, rewriting that record
in place and saving it leaves it where it was, and the key still resolves to
it. -/
theorem update_found_by_id {db : Db} {key : String} {r : Reservation} (u : Reservation)
    (hf : findReservation db key = some r) (hk : r.id = key) (hid : u.id = r.id) :
    saveReservation (mutateFound db key u) u = mutateFound db key u ∧
      findReservation (mutateFound db key u) key = some u := by
  have hu : matchesKey key u = true := (matchesKey_iff key u).2 (Or.inl (hid.trans hk))
  induction db with
  | nil => simp [findReservation] at hf
  | cons a rest ih =>
    rw [findReservation_cons] at hf
    rw [mutateFound_cons]
    by_cases e : matchesKey key a = true
    · rw [if_pos e]
      constructor
      · simp [saveReservation_cons]
      · rw [findReservation_cons, if_pos hu]
    · rw [if_neg e] at hf
      rw [if_neg e]
      have hne : ¬ a.id = u.id := by
        intro e'
        apply e
        rw [matchesKey_iff]
        left
        rw [e', hid, hk]
      obtain ⟨h1, h2⟩ := ih hf
      constructor
      · rw [saveReservation_cons, if_neg hne, h1]
      · rw [findReservation_cons, if_neg e, h2]

/-- C6: for every store, every key that resolves to a record and every
assign-tracking body, the stored record afterwards has status `checked_in` if
the status was `reserved` and its old status otherwise, hence never `reserved`;
and a second assign-tracking call under the record's id, with any body, yields
the status the first call left. -/
theorem assignTracking_status_idempotent (db : Db) (session : Option Session)
    (key : String) (i : AssignInput) (r : Reservation)
    (hrole : roleMatches "frontdesk" session = true)
    (hf : findReservation db key = some r) :
    (∃ r' ∈ (handle db (.assignTracking session key i)).1, r'.id = r.id ∧
      r'.status = (if r.status = "reserved" then "checked_in" else r.status) ∧
      r'.status ≠ "reserved") ∧
    (r.id = key → ∀ i2 : AssignInput, ∃ r1 r2,
      findReservation (handle db (.assignTracking session key i)).1 key = some r1 ∧
      r1.status = (if r.status = "reserved" then "checked_in" else r.status) ∧
      r2 ∈ (handle (handle db (.assignTracking session key i)).1
        (.assignTracking session key i2)).1 ∧
      r2.id = r.id ∧ r2.status = r1.status) := by
  constructor
  · obtain ⟨r', hmem, hid, _, hst⟩ := assignTracking_stores db session key i r hrole hf
    refine ⟨r', hmem, hid, ?_, ?_⟩
    · rw [hst, assignFields_status]
    · rw [hst]; exact assignFields_status_ne_reserved r i
  · intro hk i2
    have hfound : ∃ r1, findReservation (handle db (.assignTracking session key i)).1 key
        = some r1 ∧ r1.id = r.id ∧ r1.status = (assignFields r i).status := by
      simp only [handle, requireRole, hrole, if_true]
      cases hs : jsToString (assignFields r i).trackingNumber with
      | none =>
        refine ⟨assignFields r i, ?_, rfl, rfl⟩
        simp only [assignTracking, hf, hs]
        exact (update_found_by_id (assignFields r i) hf hk rfl).2
      | some shown =>
        refine ⟨assignRecord r i shown, ?_, rfl, rfl⟩
        simp only [assignTracking, hf, hs]
        rw [(update_found_by_id (assignRecord r i shown) hf hk rfl).1]
        exact (update_found_by_id (assignRecord r i shown) hf hk rfl).2
    obtain ⟨r1, hf1, hid1, hst1⟩ := hfound
    obtain ⟨r2, hmem2, hid2, _, hst2⟩ :=
      assignTracking_stores _ session key i2 r1 hrole hf1
    refine ⟨r1, r2, hf1, ?_, hmem2, hid2.trans hid1, ?_⟩
    · rw [hst1, assignFields_status]
    · rw [hst2, assignFields_status, if_neg]
      rw [hst1]
      exact assignFields_status_ne_reserved r i

/-- C6, at a concrete history: a second assign-tracking call on the record
`RA1B2C3`, already checked in, leaves a record `RA1B2C3` with status
`checked_in`. -/
theorem assignTracking_status_idempotent_witness :
    ∃ r' ∈ (handle (run [] createThenLabel)
        (.assignTracking (loggedIn "frontdesk") "RA1B2C3" emptyAssign)).1,
      r'.id = "RA1B2C3" ∧ r'.status = "checked_in" := by
  obtain ⟨r', hmem, hid, hst, _⟩ :=
    (assignTracking_status_idempotent (run [] createThenLabel) (loggedIn "frontdesk")
      "RA1B2C3" emptyAssign labelledRecord (by decide) (by rfl)).1
  exact ⟨r', hmem, hid, hst⟩

theorem overwrite_eq_getD (field : Option JsValue) (old : JsValue) :
    overwrite field old = field.getD old := by
  cases field <;> rfl

/-- C7: for every store, every key that resolves to a record `r` and every edit
body, the edit route answers with the rewritten record and stores it; each of
the six allow-listed fields takes the value of the body when the body has the
field and keeps its old value otherwise; `status`, `id`, `trackingNumber`,
`driverId`, `proof`, `desiredWindow` and `createdAt` are unchanged; the events
are the old events followed by one event of type `edited`; and in a store with
pairwise distinct ids the rewritten record takes the place of `r`, everything
else staying where it was. -/
theorem edit_overwrites_allow_list (db : Db) (session : Option Session) (key : String)
    (i : EditInput) (r : Reservation)
    (hrole : roleMatches "frontdesk" session = true)
    (hf : findReservation db key = some r) :
    ∃ r', handle db (.edit session key i) =
        (saveReservation (mutateFound db key r') r', .ok r') ∧
      r' ∈ (handle db (.edit session key i)).1 ∧
      r'.itemDescription = i.itemDescription.getD r.itemDescription ∧
      r'.customerName = i.customerName.getD r.customerName ∧
      r'.customerContact = i.customerContact.getD r.customerContact ∧
      r'.weightEstimate = i.weightEstimate.getD r.weightEstimate ∧
      r'.storageLocation = i.storageLocation.getD r.storageLocation ∧
      r'.frontDeskTags = i.frontDeskTags.getD r.frontDeskTags ∧
      r'.status = r.status ∧ r'.id = r.id ∧ r'.trackingNumber = r.trackingNumber ∧
      r'.driverId = r.driverId ∧ r'.proof = r.proof ∧
      r'.desiredWindow = r.desiredWindow ∧ r'.createdAt = r.createdAt ∧
      (∃ e, r'.events = r.events ++ [e] ∧ e.eventType = "edited") ∧
      ((db.map (fun x => x.id)).Nodup → ∃ front back, db = front ++ r :: back ∧
        (handle db (.edit session key i)).1 = front ++ r' :: back) := by
  have hh : handle db (.edit session key i) =
      (saveReservation (mutateFound db key (editRecord r i)) (editRecord r i),
        .ok (editRecord r i)) := by
    simp only [handle, requireRole, hrole, if_true, editReservation, hf]
  refine ⟨editRecord r i, hh, ?_, overwrite_eq_getD _ _, overwrite_eq_getD _ _,
    overwrite_eq_getD _ _, overwrite_eq_getD _ _, overwrite_eq_getD _ _,
    overwrite_eq_getD _ _, rfl, rfl, rfl, rfl, rfl, rfl, rfl, ⟨_, rfl, rfl⟩, ?_⟩
  · rw [hh]; exact mem_saveReservation_self _ _
  · intro hnd
    obtain ⟨front, back, h1, h2⟩ := update_found (editRecord r i) hnd hf rfl
    exact ⟨front, back, h1, by rw [hh]; exact h2⟩

/-- C7, at a concrete store: editing the record of Ann with a new item
description and a `null` customer name. -/
theorem edit_overwrites_allow_list_witness :
    ∃ r', r' ∈ (handle [annRecord] (.edit (loggedIn "frontdesk") "RA1B2C3" relabelEdit)).1 ∧
      r'.itemDescription = .str "crate" ∧ r'.customerName = .null ∧
      r'.status = "reserved" ∧ eventTypes r' = ["reserved", "edited"] := by
  obtain ⟨r', _, hmem, h1, h2, _, _, _, _, h3, _, _, _, _, _, _, ⟨e, he, het⟩, _⟩ :=
    edit_overwrites_allow_list [annRecord] (loggedIn "frontdesk") "RA1B2C3" relabelEdit
      annRecord (by decide) (by rfl)
  refine ⟨r', hmem, h1, h2, h3, ?_⟩
  rw [eventTypes, he, List.map_append, List.map_singleton, het]
  rfl

/-- C9, refuted as stated: a deliver without upload whose body carries the text
`left at door` as `proofValue` but no `proofType` marks the record delivered
and leaves its proof `null`. -/
theorem deliver_without_proofType_keeps_proof :
    (run [] deliverUntyped).map (fun r => (r.id, r.status, eventTypes r, r.proof.isSome)) =
      [("RA1B2C3", "delivered", ["reserved", "delivered"], false)] := by
  decide

/-- C9, amended: for every store, every key that resolves to a record `r` and
every deliver request, the route answers with the rewritten record and stores
it; its status is `delivered` and its events are the old events followed by one
event of type `delivered`; its proof is the reference of the uploaded file when
a file is uploaded; otherwise, when `proofType` is the string `text` and
`proofValue` is truthy, the submitted text; and otherwise the proof `r` had. -/
theorem deliver_sets_status_and_proof (db : Db) (session : Option Session) (key : String)
    (i : DeliverInput) (r : Reservation)
    (hrole : roleMatches "driver" session = true)
    (hf : findReservation db key = some r) :
    ∃ r', handle db (.deliver session key i) =
        (saveReservation (mutateFound db key r') r', .ok r') ∧
      r' ∈ (handle db (.deliver session key i)).1 ∧
      r'.id = r.id ∧ r'.status = "delivered" ∧
      (∃ e, r'.events = r.events ++ [e] ∧ e.eventType = "delivered") ∧
      (∀ filePath, i.file = some filePath →
        r'.proof = some ⟨"photo", .str ("/uploads/" ++ basename filePath)⟩) ∧
      (∀ v, i.file = none → i.proofType = some (.str "text") → i.proofValue = some v →
        truthy v = true → r'.proof = some ⟨"text", v⟩) ∧
      (i.file = none →
        (fieldIsString i.proofType "text" = false ∨ truthyField i.proofValue = false) →
        r'.proof = r.proof) := by
  have hh : handle db (.deliver session key i) =
      (saveReservation (mutateFound db key (deliverRecord r i)) (deliverRecord r i),
        .ok (deliverRecord r i)) := by
    simp only [handle, requireRole, hrole, if_true, deliverReservation, hf]
  refine ⟨deliverRecord r i, hh, ?_, rfl, rfl, ⟨_, rfl, rfl⟩, ?_, ?_, ?_⟩
  · rw [hh]; exact mem_saveReservation_self _ _
  · intro filePath hfile
    simp [deliverRecord, deliveredProof, hfile]
  · intro v hfile htype hval hv
    simp [deliverRecord, deliveredProof, hfile, htype, hval, hv, fieldIsString,
      strictEqString]
  · intro hfile hno
    simp only [deliverRecord, deliveredProof, hfile]
    cases hval : i.proofValue with
    | none => rfl
    | some v =>
      rcases hno with hno | hno
      · simp [hno]
      · rw [hval] at hno
        simp only [truthyField] at hno
        simp [hno]

/-- C9, amended, at a concrete store: delivering the one record `RA1B2C3` with
`proofType` `text` and `proofValue` `left at door` records that text. -/
theorem deliver_sets_status_and_proof_witness :
    ∃ r', r' ∈ (handle [newReservation (boxInput "a1b2c3") (.str "box")]
        (.deliver (loggedIn "driver") "RA1B2C3" (doorProof (some (.str "text"))))).1 ∧
      r'.status = "delivered" ∧ r'.proof = some ⟨"text", .str "left at door"⟩ := by
  obtain ⟨r', _, hmem, _, hst, _, _, htext, _⟩ :=
    deliver_sets_status_and_proof [newReservation (boxInput "a1b2c3") (.str "box")]
      (loggedIn "driver") "RA1B2C3" (doorProof (some (.str "text")))
      (newReservation (boxInput "a1b2c3") (.str "box")) (by decide) (by rfl)
  exact ⟨r', hmem, hst, htext (.str "left at door") rfl rfl rfl (by decide)⟩

/-- C10: the role test passes exactly when the request has a session whose role
is the required role; `requireRole` then runs the handler, and otherwise
redirects to the login page of the required role and returns the store as it
was; each of the six guarded lifecycle routes is its handler behind
`requireRole` with its role. -/
theorem requireRole_exact_role (db : Db) (session : Option Session) :
    (∀ role, roleMatches role session = true ↔
      ∃ s, session = some s ∧ s.role = some role) ∧
    (∀ role next, roleMatches role session = true →
      requireRole role session db next = next db) ∧
    (∀ role next, roleMatches role session = false →
      requireRole role session db next = (db, .redirect ("/login?role=" ++ role))) ∧
    (∀ key i, handle db (.assignTracking session key i) =
      if roleMatches "frontdesk" session then assignTracking db key i
      else (db, .redirect "/login?role=frontdesk")) ∧
    (∀ key i, handle db (.edit session key i) =
      if roleMatches "frontdesk" session then editReservation db key i
      else (db, .redirect "/login?role=frontdesk")) ∧
    (∀ key now1 now2, handle db (.moveToLoading session key now1 now2) =
      if roleMatches "store" session then moveToLoading db key now1 now2
      else (db, .redirect "/login?role=store")) ∧
    (∀ key now1 now2, handle db (.markReady session key now1 now2) =
      if roleMatches "store" session then markReady db key now1 now2
      else (db, .redirect "/login?role=store")) ∧
    (∀ key now1 now2, handle db (.claim session key now1 now2) =
      if roleMatches "driver" session
      then claimReservation db (sessionUser session) key now1 now2
      else (db, .redirect "/login?role=driver")) ∧
    (∀ key i, handle db (.deliver session key i) =
      if roleMatches "driver" session then deliverReservation db key i
      else (db, .redirect "/login?role=driver")) := by
  refine ⟨?_, ?_, ?_, ?_, ?_, ?_, ?_, ?_, ?_⟩
  · intro role
    cases session with
    | none => simp [roleMatches]
    | some s => simp [roleMatches]
  · intro role next h
    simp [requireRole, h]
  · intro role next h
    simp [requireRole, h]
  all_goals intros; rfl

/-- C10, at a concrete request: an edit sent under a `store` session is
redirected to the front-desk login and the store is returned as it was. -/
theorem requireRole_exact_role_witness :
    requireRole "frontdesk" (loggedIn "store") [newReservation (boxInput "a1b2c3") (.str "box")]
        (fun d => editReservation d "RA1B2C3" noEdits) =
      ([newReservation (boxInput "a1b2c3") (.str "box")],
        .redirect ("/login?role=" ++ "frontdesk")) :=
  (requireRole_exact_role [newReservation (boxInput "a1b2c3") (.str "box")]
    (loggedIn "store")).2.2.1 "frontdesk" (fun d => editReservation d "RA1B2C3" noEdits)
    (by decide)

end HomeAmazon
